import Mathlib

/-!
Verification of the Spot Lifecycle & Moderation Engine of the Biriyani Hunter
repository.  The definitions below are a shallow embedding of the relevant
source code:

* `castVote` embeds `handleVote` (src/src/App.jsx lines 434-481) together with
  the SQL statements it issues against the `locations` and `votes` tables.
* `classify` embeds the moderation predicates `isFake` (getMarkerIcon,
  App.jsx line 50), `isSpam` (App.jsx line 629) and `shouldDelete`
  (App.jsx line 630), composed in the priority order in which the rendering
  pipeline consults them (a `shouldDelete` marker is not rendered at all, an
  `isSpam` popup is blurred, an `isFake` marker is recoloured).
* `fetchLocations` embeds the SELECT of `fetchLocations`
  (App.jsx lines 392-407).
* `reconcile` embeds the `alreadyAdded` deduplication of detected mosque
  candidates (App.jsx lines 703-727); `calculateDistance` embeds the
  haversine helper (App.jsx lines 23-32).
* `handleAddSubmit` embeds the spot-creation handler
  (App.jsx lines 483-511) together with the schema defaults of the
  `locations` table (src/src/db.js).

Modelling conventions: SQL TEXT dates in ISO `YYYY-MM-DD` format compare
lexicographically exactly like day numbers, so calendar days and the
`created_at` timestamp are embedded as `Nat`.  SQL INTEGER counters never go
below zero (every decrement is `MAX(0, x - 1)`), so they are embedded as `Nat`
where truncated subtraction is exactly `MAX(0, x - 1)`.  Coordinates are
embedded as exact rationals.  The random primary key of a `votes` row is
observationally irrelevant and omitted.  The per-user `voteCounts` cache that
`handleVote` consults is synchronised with the `votes` table (it is loaded by
the `syncVotes` query `SELECT location_id, vote_type FROM votes WHERE
user_id = ?` and mirrored on every write), so in the sequential model it is
embedded as a lookup in the ledger itself.
-/

/-- Direction of a vote: the `vote_type` column, `up` or `down`. -/
inductive VoteDir where
  | up
  | down
deriving DecidableEq

/-- The opposite direction. -/
def VoteDir.opp : VoteDir → VoteDir
  | .up => .down
  | .down => .up

/-- A row of the `votes` table: one record per (location, user) with its
direction.  The random primary key is omitted (no claim observes it). -/
structure VoteRec where
  locationId : String
  userId : String
  voteType : VoteDir
deriving DecidableEq

/-- A row of the `locations` table (src/src/db.js schema plus the columns
added by the later migration: category, expiry_date, contact_name,
contact_number).  `expiryDate = none` models a NULL or empty-string
`expiry_date`.  `upvotes` and `downvotes` default to 0 on insert. -/
structure LocationRow where
  id : String
  name : String
  area : String
  category : String
  lat : ℚ
  lng : ℚ
  date : Nat
  expiryDate : Option Nat
  createdAt : Nat
  packets : Nat
  notes : String
  contactName : String
  contactNumber : String
  upvotes : Nat
  downvotes : Nat
deriving DecidableEq

/-- The persisted state the engine acts on: the `locations` table and the
`votes` table. -/
structure DBState where
  locations : List LocationRow
  votes : List VoteRec
deriving DecidableEq

/-- The guard `String(id).startsWith('mosque-')` of handleVote
(App.jsx line 435): detected-mosque ids are not votable.  A string starts
with the 7-character ASCII prefix exactly when its first 7 characters are
those of the shorter string. -/
def isMosqueId (id : String) : Bool :=
  decide (id.data.take 7 = "mosque-".data)

/-- Does this vote record belong to the given (location, user) pair?  This is
the WHERE clause `location_id = ? AND user_id = ?` used by handleVote. -/
def isPair (id userId : String) (v : VoteRec) : Bool :=
  decide (v.locationId = id ∧ v.userId = userId)

/-- The current vote of a user on a location, as handleVote reads it from the
(ledger-synchronised) `voteCounts` cache. -/
def findVote (votes : List VoteRec) (id userId : String) : Option VoteDir :=
  (votes.find? (isPair id userId)).map (·.voteType)

/-- The SQL `UPDATE locations SET field = field + 1` for the counter matching
a direction. -/
def incField (t : VoteDir) (r : LocationRow) : LocationRow :=
  match t with
  | .up => { r with upvotes := r.upvotes + 1 }
  | .down => { r with downvotes := r.downvotes + 1 }

/-- The SQL `UPDATE locations SET field = MAX(0, field - 1)` for the counter
matching a direction; truncated `Nat` subtraction is exactly `MAX(0, x - 1)`. -/
def decFieldClamped (t : VoteDir) (r : LocationRow) : LocationRow :=
  match t with
  | .up => { r with upvotes := r.upvotes - 1 }
  | .down => { r with downvotes := r.downvotes - 1 }

/-- Apply a row update to every `locations` row matching a `WHERE id = ?`
clause. -/
def updateWhere (id : String) (f : LocationRow → LocationRow)
    (ls : List LocationRow) : List LocationRow :=
  ls.map fun r => if r.id = id then f r else r

/-- `castVote` embeds `handleVote(id, type)` of App.jsx lines 434-481.
Three branches, each an atomic `db.batch`:
* same direction as the existing record: decrement the matching counter
  (clamped at 0) and `DELETE FROM votes` for the pair (vote retracted);
* opposite direction: decrement the old counter (clamped), increment the new
  one, and `UPDATE votes SET vote_type` for the pair (vote changed);
* no existing record: increment the matching counter and `INSERT INTO votes`
  (vote recorded).
Detected-mosque ids are rejected up front and leave the state unchanged. -/
def castVote (s : DBState) (id userId : String) (t : VoteDir) : DBState :=
  if isMosqueId id then s
  else
    match findVote s.votes id userId with
    | some currentVote =>
      if currentVote = t then
        { locations := updateWhere id (decFieldClamped t) s.locations,
          votes := s.votes.filter fun v => !isPair id userId v }
      else
        { locations :=
            updateWhere id (fun r => incField t (decFieldClamped currentVote r))
              s.locations,
          votes := s.votes.map fun v =>
            if isPair id userId v then { v with voteType := t } else v }
    | none =>
      { locations := updateWhere id (incField t) s.locations,
        votes := s.votes ++ [{ locationId := id, userId := userId, voteType := t }] }

/-- One castVote request: spot id, user id and direction. -/
structure VoteOp where
  spotId : String
  userId : String
  dir : VoteDir

/-- Run a sequence of castVote operations left to right. -/
def applyVotes (s : DBState) (ops : List VoteOp) : DBState :=
  ops.foldl (fun st op => castVote st op.spotId op.userId op.dir) s

/-- Number of ledger records for a given location with a given direction:
`count(votes where location_id = id and vote_type = t)`. -/
def countVotes (votes : List VoteRec) (id : String) (t : VoteDir) : Nat :=
  (votes.filter fun v => decide (v.locationId = id ∧ v.voteType = t)).length

/-- The spec's ledger/counter agreement: every stored row's counters equal
the ledger counts for its id. -/
def countersConsistent (s : DBState) : Prop :=
  ∀ r ∈ s.locations,
    r.upvotes = countVotes s.votes r.id .up ∧
    r.downvotes = countVotes s.votes r.id .down

/-- At most one ledger record per (location, user) pair. -/
def uniquePairs (votes : List VoteRec) : Prop :=
  votes.Pairwise fun a b => ¬(a.locationId = b.locationId ∧ a.userId = b.userId)

/-! ## ModerationPolicy -/

/-- The distrust predicate of getMarkerIcon (App.jsx line 50):
`downvotes - upvotes >= 5` recolours the marker.  JS subtraction can go
negative, so it is computed in `Int`. -/
def isFake (upvotes downvotes : Nat) : Bool :=
  decide ((5 : Int) ≤ (downvotes : Int) - (upvotes : Int))

/-- The spam predicate of the marker rendering (App.jsx line 629):
`downvotes >= 10` blurs the popup and the listing card. -/
def isSpam (downvotes : Nat) : Bool :=
  decide (10 ≤ downvotes)

/-- The hard-delete predicate of the marker rendering (App.jsx line 630):
`downvotes >= 20` suppresses the marker entirely. -/
def shouldDelete (downvotes : Nat) : Bool :=
  decide (20 ≤ downvotes)

/-- The four visibility/trust states of the moderation policy. -/
inductive ModState where
  | NORMAL
  | FLAGGED
  | SUPPRESSED
  | DELETE
deriving DecidableEq

/-- The moderation classification recomputed from the raw counters on every
read, assembled from the three source predicates in the priority order of the
rendering pipeline: a `shouldDelete` row is not rendered at all (App.jsx
line 631), otherwise an `isSpam` row is obscured (App.jsx lines 646-647 and
188-190), otherwise an `isFake` row carries the distrust colour (App.jsx
lines 50-51), otherwise the row is normal. -/
def classify (upvotes downvotes : Nat) : ModState :=
  if shouldDelete downvotes then .DELETE
  else if isSpam downvotes then .SUPPRESSED
  else if isFake upvotes downvotes then .FLAGGED
  else .NORMAL

/-! ## SpotStore listing (fetchLocations) -/

/-- The expiry disjunct of the fetchLocations WHERE clause
(App.jsx line 398): `expiry_date >= ? OR expiry_date = '' OR expiry_date IS
NULL`.  A NULL or empty `expiry_date` is `none` and always passes; a stored
day passes when it is on or after the reference day. -/
def expiryOk (e : Option Nat) (refDate : Nat) : Bool :=
  match e with
  | none => true
  | some x => decide (refDate ≤ x)

/-- The full fetchLocations WHERE clause (App.jsx line 398):
`date <= ?` AND the expiry disjunct. -/
def visibleOn (r : LocationRow) (refDate : Nat) : Bool :=
  decide (r.date ≤ refDate) && expiryOk r.expiryDate refDate

/-- The `ORDER BY created_at DESC` ordering: a row sorts before another when
it was created at or after it. -/
def createdDesc (a b : LocationRow) : Prop :=
  b.createdAt ≤ a.createdAt

instance : DecidableRel createdDesc := fun a b => Nat.decLe b.createdAt a.createdAt

instance : IsTotal LocationRow createdDesc :=
  ⟨fun a b => by unfold createdDesc; exact Nat.le_total b.createdAt a.createdAt⟩

instance : IsTrans LocationRow createdDesc :=
  ⟨fun _ _ _ h1 h2 => Nat.le_trans h2 h1⟩

/-- `fetchLocations` embeds the read of App.jsx lines 392-407: `SELECT * FROM
locations WHERE date <= ? AND (expiry_date >= ? OR expiry_date = '' OR
expiry_date IS NULL) ORDER BY created_at DESC`.  It is a pure read: the query
contains no DELETE or UPDATE, so the stored rows are untouched. -/
def fetchLocations (store : List LocationRow) (refDate : Nat) : List LocationRow :=
  (store.filter (visibleOn · refDate)).insertionSort createdDesc

/-! ## LandmarkDeduper and DistanceEngine -/

/-- A detected landmark candidate from the external feed (the mosque objects
built in MosqueDetector, App.jsx lines 92-102): id, name and coordinates. -/
structure Candidate where
  id : String
  name : String
  lat : ℚ
  lng : ℚ
deriving DecidableEq

/-- The dedup test of the detected-mosque rendering (App.jsx lines 704-707):
a candidate is already represented when some stored row lies within 0.0001
degrees of it in latitude and in longitude (an axis-aligned box test). -/
def alreadyAdded (ls : List LocationRow) (m : Candidate) : Bool :=
  ls.any fun l =>
    decide (|l.lat - m.lat| < 1/10000) && decide (|l.lng - m.lng| < 1/10000)

/-- The reconciliation pass over the candidate list (App.jsx lines 703-727):
candidates that are already represented are dropped (`return null`), the rest
are surfaced unchanged. -/
def reconcile (cands : List Candidate) (ls : List LocationRow) : List Candidate :=
  cands.filter fun m => !alreadyAdded ls m

/-- JS `Math.atan2(y, x)` on the reals (the only branch the distance formula
ever reaches has `x > 0`). -/
noncomputable def atan2 (y x : ℝ) : ℝ :=
  if 0 < x then Real.arctan (y / x)
  else if x < 0 ∧ 0 ≤ y then Real.arctan (y / x) + Real.pi
  else if x < 0 ∧ y < 0 then Real.arctan (y / x) - Real.pi
  else if x = 0 ∧ 0 < y then Real.pi / 2
  else if x = 0 ∧ y < 0 then -(Real.pi / 2)
  else 0

/-- The DistanceEngine haversine `calculateDistance` (App.jsx lines 23-32):
great-circle distance in kilometres on a sphere of radius 6371 km. -/
noncomputable def calculateDistance (lat1 lon1 lat2 lon2 : ℝ) : ℝ :=
  let R : ℝ := 6371
  let dLat := (lat2 - lat1) * Real.pi / 180
  let dLon := (lon2 - lon1) * Real.pi / 180
  let a := Real.sin (dLat / 2) * Real.sin (dLat / 2) +
      Real.cos (lat1 * Real.pi / 180) * Real.cos (lat2 * Real.pi / 180) *
        Real.sin (dLon / 2) * Real.sin (dLon / 2)
  let c := 2 * atan2 (Real.sqrt a) (Real.sqrt (1 - a))
  R * c

/-! ## Spot creation (handleAddSubmit) -/

/-- The address object of a successful reverse-geocode response
(`data?.address?...`, App.jsx line 490).  A field is `none` when it is
missing or empty (JS falsy). -/
structure GeoAddress where
  suburb : Option String
  city : Option String
  town : Option String

/-- The draft the add-spot form submits (the `newLocation` state, App.jsx
lines 231-239).  Optional fields are `none` when left blank (JS falsy), and
`packets` is the already-parsed `parseInt` result (`none` when empty or
unparsable). -/
structure SpotDraft where
  name : String
  category : String
  notes : String
  packets : Option Nat
  contactName : Option String
  contactNumber : Option String
  expiryDate : Option Nat

/-- Outcome of a submission attempt. -/
inductive AddResult where
  | added
  | missingName
  | failed
deriving DecidableEq

/-- JS `newLocation.name.trim()` truthiness: the name contains some
non-whitespace character. -/
def nameNonBlank (s : String) : Bool :=
  s.data.any fun c => !c.isWhitespace

/-- The fixed fallback area label substituted when the geocode response
carries no usable field (App.jsx line 490). -/
def fallbackArea : String := "ঢাকা"

/-- The area label `data?.address?.suburb || data?.address?.city ||
data?.address?.town || fallback` (App.jsx line 490); `addr = none` models a
response without an `address` object. -/
def areaLabel (addr : Option GeoAddress) : String :=
  ((addr.bind (·.suburb)).orElse fun _ => (addr.bind (·.city)).orElse fun _ =>
    addr.bind (·.town)).getD fallbackArea

/-- The `locations` row built by the INSERT of handleAddSubmit (App.jsx
lines 492-501) together with the schema defaults (counters start at 0,
`created_at` defaults to the current timestamp). -/
def insertedRow (draft : SpotDraft) (addr : Option GeoAddress) (newId : String)
    (today now : Nat) (mapLat mapLng : ℚ) (username : String) : LocationRow :=
  { id := newId
    name := draft.name
    area := areaLabel addr
    category := draft.category
    lat := mapLat
    lng := mapLng
    date := today
    expiryDate := some (draft.expiryDate.getD today)
    createdAt := now
    packets := draft.packets.getD 0
    notes := draft.notes
    contactName := draft.contactName.getD username
    contactNumber := draft.contactNumber.getD ""
    upvotes := 0
    downvotes := 0 }

/-- `handleAddSubmit` embeds App.jsx lines 483-511.  The whole body after the
name check sits in one try/catch: the reverse-geocode fetch runs first, and
only if it succeeds does the INSERT run; a thrown fetch lands in the catch
block and nothing is inserted.  `geo` is the outcome of the fetch
(`Except.error` models a thrown fetch or JSON parse), `newId` the generated
id, `today` the creation day, `now` the `created_at` timestamp the schema
default assigns, `mapLat`/`mapLng` the selected map centre, `username` the
stored user name, `timeStr` the formatted local time. -/
def handleAddSubmit (store : List LocationRow) (draft : SpotDraft)
    (geo : Except Unit (Option GeoAddress)) (newId : String)
    (today now : Nat) (mapLat mapLng : ℚ) (username : String) :
    List LocationRow × AddResult :=
  if !nameNonBlank draft.name then (store, .missingName)
  else
    match geo with
    | .error _ => (store, .failed)
    | .ok addr =>
      (store ++ [insertedRow draft addr newId today now mapLat mapLng username], .added)

/-! ## Concrete data used by the evaluation witnesses -/

/-- A stored spot with all-default content, zero counters and integer
coordinates; the individual witnesses override the fields they care about. -/
def baseRow : LocationRow :=
  { id := "L0", name := "Spot", area := "Dhaka", category := "F", lat := 24,
    lng := 90, date := 0, expiryDate := none, createdAt := 0, packets := 0,
    notes := "", contactName := "", contactNumber := "", upvotes := 0,
    downvotes := 0 }

/-- A one-spot store with an empty ledger and zeroed counters. -/
def demoState : DBState :=
  { locations := [{ baseRow with id := "s1", date := 3, expiryDate := some 9 }],
    votes := [] }

/-- A vote sequence exercising all three castVote branches on two users. -/
def demoOps : List VoteOp :=
  [{ spotId := "s1", userId := "u1", dir := .up },
   { spotId := "s1", userId := "u2", dir := .down },
   { spotId := "s1", userId := "u1", dir := .down },
   { spotId := "s1", userId := "u2", dir := .down }]

/-- The demo state after user u1 already cast a down-vote on spot s1: a
reachable state in which the (s1, u1) pair has an existing ledger record. -/
def demoStateVoted : DBState := castVote demoState "s1" "u1" VoteDir.down

/-- A spot whose counters classify as DELETE (20 downvotes) and whose date
window covers reference day 3. -/
def rowDel : LocationRow :=
  { baseRow with id := "bad1", date := 0, expiryDate := some 9, downvotes := 20 }

/-- A spot expiring on day 5 (the reference day of the listing witness). -/
def rowExpToday : LocationRow :=
  { baseRow with id := "t1", date := 2, expiryDate := some 5, createdAt := 7 }

/-- A spot expiring on day 4, the day before the reference day. -/
def rowExpYesterday : LocationRow :=
  { baseRow with id := "y1", date := 2, expiryDate := some 4, createdAt := 8 }

/-- Store holding the two expiry-boundary spots. -/
def demoStore6 : List LocationRow := [rowExpToday, rowExpYesterday]

/-- The spec's dedup example candidate at (23.81, 90.41). -/
def candSpec : Candidate := { id := "m1", name := "Mosque", lat := 2381/100, lng := 9041/100 }

/-- An existing spot about 10 metres from the candidate
(lat 23.8100001, lng 90.4100001). -/
def locSpecNear : LocationRow :=
  { baseRow with id := "n1", lat := 238100001/10000000, lng := 904100001/10000000 }

/-- An existing spot about 500 metres from the candidate (0.0045 degrees of
latitude away: lat 23.8145, lng 90.41). -/
def locSpecFar : LocationRow :=
  { baseRow with id := "f1", lat := 238145/10000, lng := 9041/100 }

/-- A candidate at the equatorial origin, for the distance counterexample. -/
def candZero : Candidate := { id := "m0", name := "M", lat := 0, lng := 0 }

/-- An existing spot 0.000095 degrees of longitude east of `candZero`: inside
the 0.0001-degree dedup box, yet more than 10 metres away by great-circle
distance. -/
def locNearEdge : LocationRow :=
  { baseRow with id := "e1", lat := 0, lng := 19/200000 }

/-- A draft submission with a non-blank name and no expiry date chosen. -/
def demoDraft : SpotDraft :=
  { name := "Iftar point", category := "F", notes := "", packets := none,
    contactName := none, contactNumber := none, expiryDate := none }

/-! ## Ledger counting lemmas -/

lemma countVotes_nil (id : String) (t : VoteDir) : countVotes [] id t = 0 := rfl

lemma countVotes_cons (v : VoteRec) (votes : List VoteRec) (id : String) (t : VoteDir) :
    countVotes (v :: votes) id t =
      countVotes votes id t + (if v.locationId = id ∧ v.voteType = t then 1 else 0) := by
  simp only [countVotes, List.filter_cons]
  by_cases h : v.locationId = id ∧ v.voteType = t
  · simp [h, Nat.add_comm]
  · simp [h]

lemma one_le_countVotes {votes : List VoteRec} {v : VoteRec} {id : String} {t : VoteDir}
    (hv : v ∈ votes) (hl : v.locationId = id) (ht : v.voteType = t) :
    1 ≤ countVotes votes id t := by
  have hmem : v ∈ votes.filter fun w => decide (w.locationId = id ∧ w.voteType = t) :=
    List.mem_filter.mpr ⟨hv, by simp [hl, ht]⟩
  simpa [countVotes] using List.length_pos.mpr (List.ne_nil_of_mem hmem)

lemma countVotes_append_one (votes : List VoteRec) (w : VoteRec) (id : String) (t : VoteDir) :
    countVotes (votes ++ [w]) id t =
      countVotes votes id t + (if w.locationId = id ∧ w.voteType = t then 1 else 0) := by
  simp only [countVotes, List.filter_append, List.length_append, List.filter]
  by_cases h : w.locationId = id ∧ w.voteType = t
  · simp [h]
  · simp [h]

lemma findVote_eq_none_forall {votes : List VoteRec} {id u : String}
    (h : findVote votes id u = none) : ∀ v ∈ votes, isPair id u v = false := by
  rw [findVote, Option.map_eq_none'] at h
  intro v hv
  have := List.find?_eq_none.mp h v hv
  simpa using this

lemma findVote_eq_some_exists {votes : List VoteRec} {id u : String} {cur : VoteDir}
    (h : findVote votes id u = some cur) :
    ∃ v ∈ votes, v.locationId = id ∧ v.userId = u ∧ v.voteType = cur := by
  rw [findVote, Option.map_eq_some'] at h
  obtain ⟨v, hfind, htype⟩ := h
  have hp := List.find?_some hfind
  have hm := List.mem_of_find?_eq_some hfind
  simp only [isPair, decide_eq_true_iff] at hp
  exact ⟨v, hm, hp.1, hp.2, htype⟩

lemma findVote_append_self {votes : List VoteRec} {id u : String} (t : VoteDir)
    (h : findVote votes id u = none) :
    findVote (votes ++ [{ locationId := id, userId := u, voteType := t }]) id u = some t := by
  rw [findVote, Option.map_eq_none'] at h
  rw [findVote, List.find?_append, h]
  simp [isPair]

lemma filter_not_pair_eq_self {votes : List VoteRec} {id u : String}
    (h : ∀ v ∈ votes, isPair id u v = false) :
    (votes.filter fun v => !isPair id u v) = votes :=
  List.filter_eq_self.mpr fun v hv => by simp [h v hv]

lemma map_not_pair_eq_self {votes : List VoteRec} {id u : String} {t : VoteDir}
    (h : ∀ v ∈ votes, isPair id u v = false) :
    (votes.map fun v => if isPair id u v then { v with voteType := t } else v) = votes := by
  induction votes with
  | nil => rfl
  | cons a l ih =>
    have ha := h a (by simp)
    simp only [List.map_cons, ha, Bool.false_eq_true, if_false, List.cons.injEq, true_and]
    exact ih fun v hv => h v (by simp [hv])

lemma countVotes_filter_pair {votes : List VoteRec} {spotId userId : String} {v0 : VoteRec}
    (huniq : uniquePairs votes) (hv : v0 ∈ votes)
    (hloc : v0.locationId = spotId) (husr : v0.userId = userId)
    (i : String) (t : VoteDir) :
    countVotes (votes.filter fun v => !isPair spotId userId v) i t
      = countVotes votes i t - (if v0.locationId = i ∧ v0.voteType = t then 1 else 0) := by
  induction votes with
  | nil => simp at hv
  | cons a l ih =>
    rw [uniquePairs, List.pairwise_cons] at huniq
    obtain ⟨hhead, htail⟩ := huniq
    rcases List.mem_cons.mp hv with rfl | hvl
    · -- the pair record is the head: it is dropped, the tail is untouched
      have hpa : isPair spotId userId v0 = true := by simp [isPair, hloc, husr]
      have htl : ∀ v ∈ l, isPair spotId userId v = false := by
        intro v hvmem
        have := hhead v hvmem
        simp only [isPair, decide_eq_false_iff_not]
        intro hc
        exact this ⟨hloc.trans hc.1.symm, husr.trans hc.2.symm⟩
      rw [List.filter_cons, hpa]
      simp only [Bool.not_true, Bool.false_eq_true, if_false]
      rw [filter_not_pair_eq_self htl, countVotes_cons]
      omega
    · -- the pair record sits in the tail: the head is kept
      have hpa : isPair spotId userId a = false := by
        have := hhead v0 hvl
        simp only [isPair, decide_eq_false_iff_not]
        intro hc
        exact this ⟨hc.1.trans hloc.symm, hc.2.trans husr.symm⟩
      rw [List.filter_cons, hpa]
      simp only [Bool.not_false, if_true]
      rw [countVotes_cons, countVotes_cons, ih htail hvl]
      have hb : (if v0.locationId = i ∧ v0.voteType = t then 1 else 0) ≤ countVotes l i t := by
        by_cases hc : v0.locationId = i ∧ v0.voteType = t
        · simpa [hc] using one_le_countVotes hvl hc.1 hc.2
        · simp [hc]
      omega

lemma countVotes_map_flip {votes : List VoteRec} {spotId userId : String} {v0 : VoteRec}
    (tNew : VoteDir) (huniq : uniquePairs votes) (hv : v0 ∈ votes)
    (hloc : v0.locationId = spotId) (husr : v0.userId = userId)
    (i : String) (t : VoteDir) :
    countVotes (votes.map fun v => if isPair spotId userId v then { v with voteType := tNew } else v) i t
      = countVotes votes i t
        - (if v0.locationId = i ∧ v0.voteType = t then 1 else 0)
        + (if v0.locationId = i ∧ tNew = t then 1 else 0) := by
  induction votes with
  | nil => simp at hv
  | cons a l ih =>
    rw [uniquePairs, List.pairwise_cons] at huniq
    obtain ⟨hhead, htail⟩ := huniq
    rcases List.mem_cons.mp hv with rfl | hvl
    · have hpa : isPair spotId userId v0 = true := by simp [isPair, hloc, husr]
      have htl : ∀ v ∈ l, isPair spotId userId v = false := by
        intro v hvmem
        have := hhead v hvmem
        simp only [isPair, decide_eq_false_iff_not]
        intro hc
        exact this ⟨hloc.trans hc.1.symm, husr.trans hc.2.symm⟩
      rw [List.map_cons, hpa]
      simp only [if_true]
      rw [map_not_pair_eq_self htl, countVotes_cons, countVotes_cons]
      simp only []
      omega
    · have hpa : isPair spotId userId a = false := by
        have := hhead v0 hvl
        simp only [isPair, decide_eq_false_iff_not]
        intro hc
        exact this ⟨hc.1.trans hloc.symm, hc.2.trans husr.symm⟩
      rw [List.map_cons, hpa]
      simp only [Bool.false_eq_true, if_false]
      rw [countVotes_cons, countVotes_cons, ih htail hvl]
      have hb : (if v0.locationId = i ∧ v0.voteType = t then 1 else 0) ≤ countVotes l i t := by
        by_cases hc : v0.locationId = i ∧ v0.voteType = t
        · simpa [hc] using one_le_countVotes hvl hc.1 hc.2
        · simp [hc]
      omega

/-! ## Uniqueness preservation and castVote branch equations -/

lemma uniquePairs_filter {votes : List VoteRec} (p : VoteRec → Bool)
    (h : uniquePairs votes) : uniquePairs (votes.filter p) :=
  List.Pairwise.filter p h

lemma uniquePairs_append_new {votes : List VoteRec} {id u : String} (t : VoteDir)
    (huniq : uniquePairs votes) (hnone : findVote votes id u = none) :
    uniquePairs (votes ++ [{ locationId := id, userId := u, voteType := t }]) := by
  rw [uniquePairs, List.pairwise_append]
  refine ⟨huniq, List.pairwise_singleton _ _, ?_⟩
  intro a ha b hb
  have hfa := findVote_eq_none_forall hnone a ha
  simp only [List.mem_singleton] at hb
  subst hb
  simp only [isPair, decide_eq_false_iff_not] at hfa
  exact fun hc => hfa ⟨hc.1, hc.2⟩

lemma flip_preserves_locationId (id u : String) (t : VoteDir) (v : VoteRec) :
    (if isPair id u v then { v with voteType := t } else v).locationId = v.locationId := by
  split <;> rfl

lemma flip_preserves_userId (id u : String) (t : VoteDir) (v : VoteRec) :
    (if isPair id u v then { v with voteType := t } else v).userId = v.userId := by
  split <;> rfl

lemma uniquePairs_map_flip {votes : List VoteRec} (id u : String) (t : VoteDir)
    (huniq : uniquePairs votes) :
    uniquePairs (votes.map fun v => if isPair id u v then { v with voteType := t } else v) := by
  rw [uniquePairs, List.pairwise_map]
  refine huniq.imp ?_
  intro a b h
  simpa [flip_preserves_locationId, flip_preserves_userId] using h

lemma castVote_mosque {s : DBState} {id u : String} {t : VoteDir}
    (hm : isMosqueId id = true) : castVote s id u t = s := by
  simp [castVote, hm]

lemma castVote_of_none {s : DBState} {id u : String} {t : VoteDir}
    (hm : isMosqueId id = false) (hfind : findVote s.votes id u = none) :
    castVote s id u t =
      { locations := updateWhere id (incField t) s.locations,
        votes := s.votes ++ [{ locationId := id, userId := u, voteType := t }] } := by
  simp [castVote, hm, hfind]

lemma castVote_of_same {s : DBState} {id u : String} {t : VoteDir}
    (hm : isMosqueId id = false) (hfind : findVote s.votes id u = some t) :
    castVote s id u t =
      { locations := updateWhere id (decFieldClamped t) s.locations,
        votes := s.votes.filter fun v => !isPair id u v } := by
  simp [castVote, hm, hfind]

lemma castVote_of_change {s : DBState} {id u : String} {t cur : VoteDir}
    (hm : isMosqueId id = false) (hfind : findVote s.votes id u = some cur)
    (hne : cur ≠ t) :
    castVote s id u t =
      { locations :=
          updateWhere id (fun r => incField t (decFieldClamped cur r)) s.locations,
        votes := s.votes.map fun v =>
          if isPair id u v then { v with voteType := t } else v } := by
  simp [castVote, hm, hfind, hne]

lemma incField_id (t : VoteDir) (r : LocationRow) : (incField t r).id = r.id := by
  cases t <;> rfl

lemma decFieldClamped_id (t : VoteDir) (r : LocationRow) :
    (decFieldClamped t r).id = r.id := by
  cases t <;> rfl

lemma decFieldClamped_incField (t : VoteDir) (r : LocationRow) :
    decFieldClamped t (incField t r) = r := by
  cases t <;> simp [incField, decFieldClamped]

lemma mem_updateWhere {id : String} {f : LocationRow → LocationRow}
    {ls : List LocationRow} {r : LocationRow} :
    r ∈ updateWhere id f ls ↔ ∃ r0 ∈ ls, (if r0.id = id then f r0 else r0) = r := by
  simp [updateWhere, List.mem_map]

lemma updateWhere_updateWhere {id : String} {f g : LocationRow → LocationRow}
    (hf : ∀ r, (f r).id = r.id) (ls : List LocationRow) :
    updateWhere id g (updateWhere id f ls) = updateWhere id (fun r => g (f r)) ls := by
  simp only [updateWhere, List.map_map]
  refine List.map_congr_left ?_
  intro r _
  by_cases h : r.id = id
  · simp [Function.comp, h, hf]
  · simp [Function.comp, h]

lemma updateWhere_id_fun (id : String) (ls : List LocationRow) :
    updateWhere id (fun r => r) ls = ls := by
  simp [updateWhere]

/-! ## Counter/ledger invariant preservation -/

lemma castVote_preserves {s : DBState} (id u : String) (t : VoteDir)
    (hc : countersConsistent s) (hu : uniquePairs s.votes) :
    countersConsistent (castVote s id u t) ∧ uniquePairs (castVote s id u t).votes := by
  by_cases hm : isMosqueId id
  · rw [castVote_mosque hm]; exact ⟨hc, hu⟩
  · rw [Bool.not_eq_true] at hm
    cases hfind : findVote s.votes id u with
    | none =>
      rw [castVote_of_none hm hfind]
      constructor
      · intro r hr
        obtain ⟨r0, hr0, hreq⟩ := mem_updateWhere.mp hr
        obtain ⟨hcu, hcd⟩ := hc r0 hr0
        by_cases hid : r0.id = id
        · subst hreq
          simp only [hid, if_true]
          cases t <;>
            simp [incField, hid, hcu, hcd, countVotes_append_one]
        · subst hreq
          simp only [hid, if_false]
          have hid2 : ¬id = r0.id := fun h => hid h.symm
          simp [countVotes_append_one, hcu, hcd, hid2]
      · exact uniquePairs_append_new t hu hfind
    | some cur =>
      obtain ⟨v0, hv0, hl0, hu0, ht0⟩ := findVote_eq_some_exists hfind
      by_cases hsame : cur = t
      · subst hsame
        rw [castVote_of_same hm hfind]
        constructor
        · intro r hr
          obtain ⟨r0, hr0, hreq⟩ := mem_updateWhere.mp hr
          obtain ⟨hcu, hcd⟩ := hc r0 hr0
          have hcount := fun (i : String) (d : VoteDir) =>
            countVotes_filter_pair hu hv0 hl0 hu0 i d
          by_cases hid : r0.id = id
          · subst hreq
            simp only [hid, if_true]
            have hge : 1 ≤ countVotes s.votes id cur := one_le_countVotes hv0 hl0 ht0
            cases cur <;>
              simp [decFieldClamped, hid, hcu, hcd, hcount, hl0, ht0]
          · subst hreq
            simp only [hid, if_false]
            have hne0 : ¬v0.locationId = r0.id := fun hcontra => hid (hl0.symm.trans hcontra).symm
            simp [hcount, hcu, hcd, hne0]
        · exact uniquePairs_filter _ hu
      · rw [castVote_of_change hm hfind hsame]
        constructor
        · intro r hr
          obtain ⟨r0, hr0, hreq⟩ := mem_updateWhere.mp hr
          obtain ⟨hcu, hcd⟩ := hc r0 hr0
          have hcount := fun (i : String) (d : VoteDir) =>
            countVotes_map_flip t hu hv0 hl0 hu0 i d
          by_cases hid : r0.id = id
          · subst hreq
            simp only [hid, if_true]
            have hge : 1 ≤ countVotes s.votes id cur := one_le_countVotes hv0 hl0 ht0
            have hnet : v0.voteType ≠ t := ht0 ▸ hsame
            cases cur <;> cases t <;> first
              | exact absurd rfl hsame
              | simp [incField, decFieldClamped, hid, hcu, hcd, hcount, hl0, ht0, hnet]
          · subst hreq
            simp only [hid, if_false]
            have hne0 : ¬v0.locationId = r0.id := fun hcontra => hid (hl0.symm.trans hcontra).symm
            simp [hcount, hcu, hcd, hne0]
        · exact uniquePairs_map_flip id u t hu

lemma applyVotes_preserves {s : DBState} (ops : List VoteOp)
    (hc : countersConsistent s) (hu : uniquePairs s.votes) :
    countersConsistent (applyVotes s ops) ∧ uniquePairs (applyVotes s ops).votes := by
  induction ops generalizing s with
  | nil => exact ⟨hc, hu⟩
  | cons op rest ih =>
    rw [applyVotes, List.foldl_cons]
    obtain ⟨hc1, hu1⟩ := castVote_preserves op.spotId op.userId op.dir hc hu
    exact ih hc1 hu1

/-! ## Listing lemmas -/

lemma mem_fetchLocations {store : List LocationRow} {refDate : Nat} {r : LocationRow} :
    r ∈ fetchLocations store refDate ↔ r ∈ store ∧ visibleOn r refDate = true := by
  rw [fetchLocations, (List.perm_insertionSort createdDesc _).mem_iff]
  exact List.mem_filter

lemma sorted_fetchLocations (store : List LocationRow) (refDate : Nat) :
    (fetchLocations store refDate).Pairwise createdDesc :=
  List.sorted_insertionSort createdDesc _

lemma visibleOn_iff {r : LocationRow} {d : Nat} :
    visibleOn r d = true ↔
      r.date ≤ d ∧ (r.expiryDate = none ∨ ∃ e, r.expiryDate = some e ∧ d ≤ e) := by
  rw [visibleOn]
  cases h : r.expiryDate with
  | none => simp [expiryOk, h]
  | some e => simp [expiryOk, h]

lemma filter_pair_eq_nil {votes : List VoteRec} {id u : String}
    (h : ∀ v ∈ votes, isPair id u v = false) :
    votes.filter (isPair id u) = [] := by
  induction votes with
  | nil => rfl
  | cons a l ih =>
    rw [List.filter_cons, h a (by simp)]
    simp only [Bool.false_eq_true, if_false]
    exact ih fun v hv => h v (by simp [hv])

lemma VoteDir.ne_opp (t : VoteDir) : t ≠ t.opp := by cases t <;> decide

/-! ## Claim C1 -/

/-- Claim C1: after any sequence of castVote operations starting from an
empty vote ledger and zeroed counters, every spot's upvotes counter equals
the number of ledger records for that spot with direction up, and its
downvotes counter the number with direction down. -/
theorem claim1_counters_match_ledger (init : DBState) (ops : List VoteOp)
    (hvotes : init.votes = [])
    (hzero : ∀ r ∈ init.locations, r.upvotes = 0 ∧ r.downvotes = 0) :
    ∀ r ∈ (applyVotes init ops).locations,
      r.upvotes = countVotes (applyVotes init ops).votes r.id .up ∧
      r.downvotes = countVotes (applyVotes init ops).votes r.id .down := by
  have hc : countersConsistent init := by
    intro r hr
    rw [hvotes]
    simpa [countVotes_nil] using hzero r hr
  have hu : uniquePairs init.votes := by rw [hvotes]; exact List.Pairwise.nil
  exact (applyVotes_preserves ops hc hu).1

/-- Evaluation witness for C1: a concrete four-vote history on a one-spot
store satisfies the hypotheses and the invariant. -/
theorem claim1_witness :
    (demoState.votes = [] ∧ ∀ r ∈ demoState.locations, r.upvotes = 0 ∧ r.downvotes = 0) ∧
    ∀ r ∈ (applyVotes demoState demoOps).locations,
      r.upvotes = countVotes (applyVotes demoState demoOps).votes r.id .up ∧
      r.downvotes = countVotes (applyVotes demoState demoOps).votes r.id .down :=
  ⟨⟨rfl, by decide⟩, claim1_counters_match_ledger demoState demoOps rfl (by decide)⟩

/-! ## Claim C2 -/

/-- Claim C2 counterexample: the toggle law does not hold for every (spot,
user) pair in every reachable state.  Starting from a state in which user u1
already holds a down-vote on spot s1 (counters (0, 1)), casting up twice in
succession first changes the vote to up and then retracts it, ending with
counters (0, 0): the counters do not return to their state before the first
cast. -/
theorem claim2_counterexample :
    ¬((castVote (castVote demoStateVoted "s1" "u1" VoteDir.up) "s1" "u1"
          VoteDir.up).locations.map (fun r => (r.upvotes, r.downvotes)) =
        demoStateVoted.locations.map fun r => (r.upvotes, r.downvotes)) := by
  decide

/-- Claim C2 amended: for a (spot, user) pair with no existing ledger record, casting
the same direction twice in succession deletes the ledger record created by
the first cast and returns the whole state, counters included, to its value
before the first cast (toggle law). -/
theorem claim2_toggle_law (s : DBState) (id u : String) (t : VoteDir)
    (h : findVote s.votes id u = none) :
    castVote (castVote s id u t) id u t = s := by
  by_cases hm : isMosqueId id
  · rw [castVote_mosque hm, castVote_mosque hm]
  · rw [Bool.not_eq_true] at hm
    rw [castVote_of_none hm h]
    have h2 : findVote
        (s.votes ++ [{ locationId := id, userId := u, voteType := t }]) id u = some t :=
      findVote_append_self t h
    rw [castVote_of_same hm h2]
    have hloc : updateWhere id (decFieldClamped t)
        (updateWhere id (incField t) s.locations) = s.locations := by
      rw [updateWhere_updateWhere (incField_id t)]
      simp only [decFieldClamped_incField]
      exact updateWhere_id_fun id s.locations
    have hvts : ((s.votes ++ [({ locationId := id, userId := u, voteType := t } : VoteRec)]).filter
        fun v => !isPair id u v) = s.votes := by
      rw [List.filter_append, filter_not_pair_eq_self (findVote_eq_none_forall h)]
      simp [isPair]
    simp only [hloc, hvts]

/-- Evaluation witness for C2: an up-vote cast twice on a concrete store
restores it exactly. -/
theorem claim2_witness :
    findVote demoState.votes "s1" "u1" = none ∧
    castVote (castVote demoState "s1" "u1" .up) "s1" "u1" .up = demoState :=
  ⟨rfl, claim2_toggle_law demoState "s1" "u1" .up rfl⟩

/-! ## Claim C3 -/

/-- Claim C3: for a votable spot and a (spot, user) pair with no existing
record, casting one direction and then the opposite leaves the ledger with
exactly one record for the pair, holding the most recent direction, and the
only counter change is one net vote of that most recent direction. -/
theorem claim3_opposite_votes (s : DBState) (id u : String) (t : VoteDir)
    (hm : isMosqueId id = false)
    (h : findVote s.votes id u = none) :
    castVote (castVote s id u t) id u t.opp =
      { locations := updateWhere id (incField t.opp) s.locations,
        votes := s.votes ++ [{ locationId := id, userId := u, voteType := t.opp }] } ∧
    (castVote (castVote s id u t) id u t.opp).votes.filter (isPair id u) =
      [{ locationId := id, userId := u, voteType := t.opp }] := by
  have h2 : findVote
      (s.votes ++ [{ locationId := id, userId := u, voteType := t }]) id u = some t :=
    findVote_append_self t h
  have hstate : castVote (castVote s id u t) id u t.opp =
      { locations := updateWhere id (incField t.opp) s.locations,
        votes := s.votes ++ [{ locationId := id, userId := u, voteType := t.opp }] } := by
    rw [castVote_of_none hm h]
    rw [castVote_of_change hm h2 (VoteDir.ne_opp t)]
    have hloc : updateWhere id (fun r => incField t.opp (decFieldClamped t r))
        (updateWhere id (incField t) s.locations) =
        updateWhere id (incField t.opp) s.locations := by
      rw [updateWhere_updateWhere (incField_id t)]
      simp only [decFieldClamped_incField]
    have hvts : ((s.votes ++ [({ locationId := id, userId := u, voteType := t } : VoteRec)]).map
        fun v => if isPair id u v then { v with voteType := t.opp } else v) =
        s.votes ++ [{ locationId := id, userId := u, voteType := t.opp }] := by
      rw [List.map_append, map_not_pair_eq_self (findVote_eq_none_forall h)]
      simp [isPair]
    simp only [hloc, hvts]
  refine ⟨hstate, ?_⟩
  rw [hstate]
  simp only [List.filter_append, filter_pair_eq_nil (findVote_eq_none_forall h)]
  simp [isPair]

/-- Evaluation witness for C3: an up-vote followed by a down-vote on a
concrete store nets exactly one down-vote with one ledger record. -/
theorem claim3_witness :
    (isMosqueId "s1" = false ∧ findVote demoState.votes "s1" "u1" = none) ∧
    (castVote (castVote demoState "s1" "u1" .up) "s1" "u1" VoteDir.up.opp =
      { locations := updateWhere "s1" (incField VoteDir.up.opp) demoState.locations,
        votes := demoState.votes ++
          [{ locationId := "s1", userId := "u1", voteType := VoteDir.up.opp }] } ∧
    (castVote (castVote demoState "s1" "u1" .up) "s1" "u1" VoteDir.up.opp).votes.filter
        (isPair "s1" "u1") =
      [{ locationId := "s1", userId := "u1", voteType := VoteDir.up.opp }]) :=
  ⟨⟨by decide, rfl⟩, claim3_opposite_votes demoState "s1" "u1" .up (by decide) rfl⟩

/-! ## Claim C5 -/

/-- Claim C5: the moderation classification recomputed from the raw counters
is DELETE exactly when downvotes reach 20; otherwise SUPPRESSED exactly when
downvotes reach 10; otherwise FLAGGED exactly when downvotes exceed upvotes
by at least 5; otherwise NORMAL. -/
theorem claim5_classification (u d : Nat) :
    (classify u d = .DELETE ↔ 20 ≤ d) ∧
    (classify u d = .SUPPRESSED ↔ d < 20 ∧ 10 ≤ d) ∧
    (classify u d = .FLAGGED ↔ d < 10 ∧ 5 ≤ (d : Int) - (u : Int)) ∧
    (classify u d = .NORMAL ↔ d < 10 ∧ (d : Int) - (u : Int) < 5) := by
  unfold classify isFake isSpam shouldDelete
  by_cases h1 : 20 ≤ d <;> by_cases h2 : 10 ≤ d <;>
    by_cases h3 : (5 : Int) ≤ (d : Int) - (u : Int) <;>
    simp [h1, h2, h3] <;> omega

/-- Evaluation witness for C5 at the DELETE boundary. -/
theorem claim5_witness : classify 3 20 = ModState.DELETE ↔ 20 ≤ 20 :=
  (claim5_classification 3 20).1

/-! ## Claim C9 -/

/-- Claim C9 counterexample: classify(0, 5) is not NORMAL, because
downvotes - upvotes = 5 already reaches the flagging threshold of the code
(`downvotes - upvotes >= 5`). -/
theorem claim9_counterexample : classify 0 5 ≠ ModState.NORMAL := by decide

/-- Claim C9 amended: classify(0, 5) evaluates to FLAGGED (it sits exactly on
the flagging threshold); the boundary just below the threshold is
classify(0, 4), which evaluates to NORMAL. -/
theorem claim9_amended : classify 0 5 = ModState.FLAGGED ∧ classify 0 4 = ModState.NORMAL := by
  decide

/-! ## Claim C4 -/

/-- Claim C4 evaluation: the read path never purges.  A spot whose counters
classify as DELETE (20 downvotes) is still returned by a fresh
`fetchLocations` read; the query is a pure SELECT (there is no
`DELETE FROM locations` anywhere in the repository), contradicting the
claimed reaper behaviour and the README's promise that such listings are
permanently excised from the database. -/
theorem claim4_delete_spot_still_returned :
    classify rowDel.upvotes rowDel.downvotes = ModState.DELETE ∧
    rowDel ∈ fetchLocations [rowDel] 3 := by
  constructor
  · decide
  · decide

/-! ## Claim C6 -/

/-- Claim C6: fetchLocations returns exactly the stored spots created on or
before the reference day whose expiry is absent or on/after the reference
day, ordered most recently created first. -/
theorem claim6_listing_window (store : List LocationRow) (refDate : Nat) (r : LocationRow) :
    (r ∈ fetchLocations store refDate ↔
      r ∈ store ∧ r.date ≤ refDate ∧
        (r.expiryDate = none ∨ ∃ e, r.expiryDate = some e ∧ refDate ≤ e)) ∧
    (fetchLocations store refDate).Pairwise (fun a b => b.createdAt ≤ a.createdAt) := by
  constructor
  · rw [mem_fetchLocations, visibleOn_iff]
  · exact sorted_fetchLocations store refDate

/-- Evaluation witness for C6: with reference day 5, the spot expiring on
day 5 is listed and the spot expiring on day 4 is not. -/
theorem claim6_witness :
    rowExpToday ∈ fetchLocations demoStore6 5 ∧
    rowExpYesterday ∉ fetchLocations demoStore6 5 := by
  constructor
  · exact ((claim6_listing_window demoStore6 5 rowExpToday).1).mpr
      ⟨by decide, by decide, Or.inr ⟨5, rfl, by decide⟩⟩
  · intro hmem
    have h := ((claim6_listing_window demoStore6 5 rowExpYesterday).1).mp hmem
    rcases h.2.2 with hnone | ⟨e, he, hle⟩
    · exact absurd hnone (by decide)
    · have : e = 4 := by
        have : rowExpYesterday.expiryDate = some 4 := by decide
        rw [this] at he
        exact (Option.some_injective _ he.symm)
      omega

/-! ## Claim C8 -/

/-- Claim C8 counterexample: with a valid draft name, a reverse-geocode
lookup that throws makes the whole creation fail: nothing is inserted and
the failure is surfaced, because in handleAddSubmit the fetch sits inside
the same try/catch as the INSERT. -/
theorem claim8_counterexample :
    nameNonBlank demoDraft.name = true ∧
    handleAddSubmit [] demoDraft (Except.error ()) "id9" 7 99 24 90 "anon" =
      ([], AddResult.failed) := by
  constructor
  · decide
  · decide

/-- The fallback chain yields the fixed label when no field is usable. -/
lemma areaLabel_of_empty {addr : Option GeoAddress}
    (hs : addr.bind GeoAddress.suburb = none)
    (hc : addr.bind GeoAddress.city = none)
    (ht : addr.bind GeoAddress.town = none) :
    areaLabel addr = fallbackArea := by
  rw [areaLabel, hs, hc, ht]
  rfl

/-- Claim C8 amended: when the reverse-geocode lookup completes but yields no
usable suburb/city/town field, creation substitutes the fixed fallback label
and completes successfully; when the lookup itself throws, the creation
fails and no spot is inserted (the failure is surfaced, not degraded). -/
theorem claim8_amended (store : List LocationRow) (draft : SpotDraft)
    (addr : Option GeoAddress) (newId : String) (today now : Nat)
    (mapLat mapLng : ℚ) (username : String)
    (hname : nameNonBlank draft.name = true)
    (hs : addr.bind GeoAddress.suburb = none)
    (hc : addr.bind GeoAddress.city = none)
    (ht : addr.bind GeoAddress.town = none) :
    handleAddSubmit store draft (Except.error ()) newId today now mapLat mapLng username =
      (store, AddResult.failed) ∧
    (handleAddSubmit store draft (Except.ok addr) newId today now mapLat mapLng username).2 =
      AddResult.added ∧
    ∃ row,
      (handleAddSubmit store draft (Except.ok addr) newId today now mapLat mapLng username).1 =
        store ++ [row] ∧ row.area = fallbackArea := by
  refine ⟨?_, ?_, ?_⟩
  · simp [handleAddSubmit, hname]
  · simp [handleAddSubmit, hname]
  · refine ⟨insertedRow draft addr newId today now mapLat mapLng username,
      by simp [handleAddSubmit, hname], ?_⟩
    exact areaLabel_of_empty hs hc ht

/-- Evaluation witness for C8 amended: a geocode response with no address
object at all. -/
theorem claim8_witness :
    (nameNonBlank demoDraft.name = true ∧
      (Option.bind none GeoAddress.suburb = (none : Option String)) ∧
      (Option.bind none GeoAddress.city = (none : Option String)) ∧
      (Option.bind none GeoAddress.town = (none : Option String))) ∧
    (handleAddSubmit [] demoDraft (Except.error ()) "id7" 7 99 24 90 "anon" =
        ([], AddResult.failed) ∧
      (handleAddSubmit [] demoDraft (Except.ok none) "id7" 7 99 24 90 "anon").2 =
        AddResult.added ∧
      ∃ row,
        (handleAddSubmit [] demoDraft (Except.ok none) "id7" 7 99 24 90 "anon").1 =
          [] ++ [row] ∧ row.area = fallbackArea) :=
  ⟨⟨by decide, rfl, rfl, rfl⟩,
    claim8_amended [] demoDraft none "id7" 7 99 24 90 "anon" (by decide) rfl rfl rfl⟩

/-! ## Claim C10 -/

/-- Claim C10: every successfully created spot is stored with a non-empty
expiry date; a blank draft expiry is replaced by the creation day, so such a
spot passes the listing expiry filter only for reference days up to and
including its creation day and is absent from any later day's listing. -/
theorem claim10_default_expiry (store : List LocationRow) (draft : SpotDraft)
    (addr : Option GeoAddress) (newId : String) (today now : Nat)
    (mapLat mapLng : ℚ) (username : String)
    (hname : nameNonBlank draft.name = true) :
    (handleAddSubmit store draft (Except.ok addr) newId today now mapLat mapLng username).2 =
      AddResult.added ∧
    ∃ row,
      (handleAddSubmit store draft (Except.ok addr) newId today now mapLat mapLng username).1 =
        store ++ [row] ∧
      row.date = today ∧
      row.expiryDate = some (draft.expiryDate.getD today) ∧
      (draft.expiryDate = none →
        (∀ refDate, expiryOk row.expiryDate refDate = true ↔ refDate ≤ today) ∧
        (∀ refDate, today < refDate →
          row ∉ fetchLocations
            ((handleAddSubmit store draft (Except.ok addr) newId today now mapLat mapLng
              username).1) refDate)) := by
  constructor
  · simp [handleAddSubmit, hname]
  · refine ⟨insertedRow draft addr newId today now mapLat mapLng username,
      by simp [handleAddSubmit, hname], rfl, rfl, ?_⟩
    intro hblank
    constructor
    · intro refDate
      simp [insertedRow, hblank, expiryOk]
    · intro refDate hlate hmem
      have hv := (mem_fetchLocations.mp hmem).2
      rw [visibleOn] at hv
      have := Bool.and_elim_right hv
      simp [insertedRow, hblank, expiryOk] at this
      omega

/-- Evaluation witness for C10: a draft with a blank expiry submitted on
day 7 is stored expiring on day 7 and is absent from the day-8 listing. -/
theorem claim10_witness :
    nameNonBlank demoDraft.name = true ∧
    ((handleAddSubmit [] demoDraft (Except.ok none) "id3" 7 99 24 90 "anon").2 =
        AddResult.added ∧
      ∃ row,
        (handleAddSubmit [] demoDraft (Except.ok none) "id3" 7 99 24 90 "anon").1 =
          [] ++ [row] ∧
        row.date = 7 ∧
        row.expiryDate = some (demoDraft.expiryDate.getD 7) ∧
        (demoDraft.expiryDate = none →
          (∀ refDate, expiryOk row.expiryDate refDate = true ↔ refDate ≤ 7) ∧
          (∀ refDate, 7 < refDate →
            row ∉ fetchLocations
              ((handleAddSubmit [] demoDraft (Except.ok none) "id3" 7 99 24 90 "anon").1)
              refDate))) :=
  ⟨by decide, claim10_default_expiry [] demoDraft none "id3" 7 99 24 90 "anon" (by decide)⟩

/-! ## Claim C7 -/

/-- Closed form of the haversine along the equator: for a small positive
longitude difference of d degrees the formula evaluates to exactly
6371 * d * pi / 180 kilometres. -/
lemma calculateDistance_equator (d : ℝ) (h0 : 0 < d) (hsmall : d ≤ 1) :
    calculateDistance 0 0 0 d = 6371 * (d * Real.pi / 180) := by
  have hpi := Real.pi_pos
  set x : ℝ := d * Real.pi / 360 with hxdef
  have hx0 : 0 < x := by positivity
  have hxlt : x < Real.pi / 2 := by
    rw [hxdef]
    rw [div_lt_div_iff₀ (by norm_num) (by norm_num)]
    nlinarith
  have hxle : x ≤ Real.pi := by nlinarith
  have hsin : 0 ≤ Real.sin x := Real.sin_nonneg_of_nonneg_of_le_pi (le_of_lt hx0) hxle
  have hcos : 0 < Real.cos x := Real.cos_pos_of_mem_Ioo ⟨by nlinarith, hxlt⟩
  have harg : d * Real.pi / 180 / 2 = x := by rw [hxdef]; ring
  rw [calculateDistance]
  simp only [sub_zero, sub_self, zero_mul, mul_zero, zero_div, Real.sin_zero,
    Real.cos_zero, one_mul, zero_add]
  rw [harg]
  rw [Real.sqrt_mul_self hsin]
  have h1a : 1 - Real.sin x * Real.sin x = Real.cos x * Real.cos x := by
    nlinarith [Real.sin_sq_add_cos_sq x]
  rw [h1a, Real.sqrt_mul_self (le_of_lt hcos)]
  rw [atan2, if_pos hcos]
  rw [← Real.tan_eq_sin_div_cos, Real.arctan_tan (by linarith) hxlt]
  rw [hxdef]
  ring

/-- Claim C7 counterexample: the stored spot sits 0.000095 degrees of
longitude from the candidate, which is more than 10 metres (0.01 km) of
great-circle distance as computed by the DistanceEngine haversine, yet
reconcile still suppresses the candidate, because the code dedups with an
axis-aligned 0.0001-degree box test, not with calculateDistance. -/
theorem claim7_counterexample :
    reconcile [candZero] [locNearEdge] = [] ∧
    (1/100 : ℝ) <
      calculateDistance (candZero.lat : ℝ) (candZero.lng : ℝ)
        (locNearEdge.lat : ℝ) (locNearEdge.lng : ℝ) := by
  constructor
  · rw [reconcile]
    have h : alreadyAdded [locNearEdge] candZero = true := by
      rw [alreadyAdded]
      simp only [List.any_cons, List.any_nil, Bool.or_false, Bool.and_eq_true,
        decide_eq_true_iff]
      constructor
      · show |locNearEdge.lat - candZero.lat| < 1/10000
        rw [show locNearEdge.lat = 0 from rfl, show candZero.lat = 0 from rfl]
        rw [abs_lt]
        constructor <;> norm_num
      · show |locNearEdge.lng - candZero.lng| < 1/10000
        rw [show locNearEdge.lng = 19/200000 from rfl, show candZero.lng = 0 from rfl]
        rw [abs_lt]
        constructor <;> norm_num
    simp [h]
  · have hcast : calculateDistance (candZero.lat : ℝ) (candZero.lng : ℝ)
        (locNearEdge.lat : ℝ) (locNearEdge.lng : ℝ) =
        calculateDistance 0 0 0 ((19 : ℝ)/200000) := by
      rw [show candZero.lat = 0 from rfl, show candZero.lng = 0 from rfl,
        show locNearEdge.lat = 0 from rfl, show locNearEdge.lng = 19/200000 from rfl]
      norm_num
    rw [hcast, calculateDistance_equator ((19 : ℝ)/200000) (by norm_num) (by norm_num)]
    nlinarith [Real.pi_gt_three]

/-- Claim C7 amended: reconcile returns exactly the candidates for which no
existing spot lies within 0.0001 degrees in both latitude and longitude (the
code's axis-aligned dedup box, the spec's degree equivalent of its 10 m
epsilon); the spec's concrete examples hold: a spot at
(23.8100001, 90.4100001) suppresses the (23.81, 90.41) candidate, while a
spot 0.0045 degrees of latitude away (about 500 m) leaves it returned
unchanged. -/
theorem claim7_amended (cands : List Candidate) (ls : List LocationRow) (c : Candidate) :
    (c ∈ reconcile cands ls ↔
      c ∈ cands ∧
        ∀ l ∈ ls, ¬(|l.lat - c.lat| < 1/10000 ∧ |l.lng - c.lng| < 1/10000)) ∧
    reconcile [candSpec] [locSpecNear] = [] ∧
    reconcile [candSpec] [locSpecFar] = [candSpec] := by
  refine ⟨?_, ?_, ?_⟩
  · rw [reconcile, List.mem_filter, Bool.not_eq_true']
    rw [alreadyAdded, List.any_eq_false]
    constructor
    · rintro ⟨hmem, hall⟩
      refine ⟨hmem, fun l hl hcontra => ?_⟩
      have := hall l hl
      simp only [Bool.and_eq_true, decide_eq_true_iff] at this
      exact this ⟨hcontra.1, hcontra.2⟩
    · rintro ⟨hmem, hall⟩
      refine ⟨hmem, fun l hl => ?_⟩
      have := hall l hl
      simp only [Bool.and_eq_true, decide_eq_true_iff]
      exact fun hcontra => this ⟨hcontra.1, hcontra.2⟩
  · rw [reconcile]
    have h : alreadyAdded [locSpecNear] candSpec = true := by
      rw [alreadyAdded]
      simp only [List.any_cons, List.any_nil, Bool.or_false, Bool.and_eq_true,
        decide_eq_true_iff]
      constructor
      · show |locSpecNear.lat - candSpec.lat| < 1/10000
        rw [show locSpecNear.lat = 238100001/10000000 from rfl,
          show candSpec.lat = 2381/100 from rfl]
        rw [abs_lt]
        constructor <;> norm_num
      · show |locSpecNear.lng - candSpec.lng| < 1/10000
        rw [show locSpecNear.lng = 904100001/10000000 from rfl,
          show candSpec.lng = 9041/100 from rfl]
        rw [abs_lt]
        constructor <;> norm_num
    simp [h]
  · rw [reconcile]
    have h : alreadyAdded [locSpecFar] candSpec = false := by
      rw [alreadyAdded]
      simp only [List.any_cons, List.any_nil, Bool.or_false, Bool.and_eq_true,
        decide_eq_true_iff]
      rw [Bool.and_eq_false_iff]
      left
      rw [decide_eq_false_iff_not]
      show ¬|locSpecFar.lat - candSpec.lat| < 1/10000
      rw [show locSpecFar.lat = 238145/10000 from rfl,
        show candSpec.lat = 2381/100 from rfl]
      rw [not_lt, le_abs]
      left
      norm_num
    simp [h]

/-- Evaluation witness for C7 amended, at a concrete candidate and an empty
store. -/
theorem claim7_witness :
    candSpec ∈ reconcile [candSpec] ([] : List LocationRow) ↔
      candSpec ∈ [candSpec] ∧
        ∀ l ∈ ([] : List LocationRow),
          ¬(|l.lat - candSpec.lat| < 1/10000 ∧ |l.lng - candSpec.lng| < 1/10000) :=
  (claim7_amended [candSpec] [] candSpec).1
